import Mathlib

/-!
Verification of the resumable concurrent block-range processor
(`internal/processor/worker.go` together with the `internal/db` status
ledger it drives).

The embedding translates the Go source into pure Lean functions:

* The `processing_status` table (`db.go`) becomes a map
  `Store : Int → Option StatusRow` (at most one row per height, exactly as
  the table's primary key guarantees).
* The external collaborators (the Bitcoin RPC `Source` and the DuckDB SQL
  engine underneath the `Store`) are modelled by an oracle `Env`: each
  fallible external call is a function that either returns a value or an
  injected error, so every theorem quantifies over all possible
  collaborator behaviours.
* `processBlock`, the body of `worker`, and `ProcessBlockRange` are
  translated line by line.  Side effects are made explicit: each function
  returns the trace of emitted progress events and collaborator calls, the
  updated store, and the Go `error` result (`Option String`).
* The only real nondeterminism in `ProcessBlockRange` is when cancellation
  is observed (Go `select` picks randomly among ready cases) and therefore
  how many heights get dequeued before the workers stop.  A `Schedule`
  value captures exactly that nondeterminism; `ValidSchedule` states which
  schedules correspond to executions the Go runtime can produce.
-/

/-- State of a `processing_status` row: the `status` column takes the
values `processing`, `completed`, `failed` (db.go). -/
inductive BlockStatus where
  | processing
  | completed
  | failed
deriving DecidableEq, Repr

/-- One row of the `processing_status` table.  The timestamp columns
(`started_at`, `completed_at`) carry wall-clock times and play no role in
any claim, so they are omitted from the embedding. -/
structure StatusRow where
  blockHash : String
  status : BlockStatus
  errorMessage : Option String
deriving DecidableEq, Repr

/-- The `processing_status` table, keyed by `block_height` (at most one
row per height). -/
abbrev Store : Type := Int → Option StatusRow

/-- Point update of the status table. -/
def Store.set (s : Store) (height : Int) (row : StatusRow) : Store :=
  fun h => if h = height then some row else s h

/-- The processor only looks at a `models.Block` as an opaque payload to
hand to `InsertBlock`; `InsertBlock` failure is injected by hash, so the
hash is the only field the embedding needs. -/
abbrev Block : Type := String

/-- The processor reads only `tx.Txid` from a `models.Transaction` (for
error messages and failure injection), so a transaction is embedded as its
txid. -/
abbrev Transaction : Type := String

/-- Oracle for the external collaborators: the RPC `Source` calls and the
SQL engine's possible failures underneath each `Store` write.  A `none`
injection means the SQL statement executes normally. -/
structure Env where
  getBlockHashByHeight : Int → Except String String
  getBlockWithTransactions : String → Except String (Block × List Transaction)
  getProcessedBlocksFails : Option String
  markBlockProcessingFails : Int → Option String
  markBlockCompletedFails : Int → Option String
  markBlockFailedFails : Int → Option String
  insertBlockFails : Block → Option String
  insertTransactionFails : Transaction → Option String

/-- `ProgressUpdate` (worker.go lines 18-24).  The Go `error` field is
embedded as the error's message. -/
structure ProgressUpdate where
  blockHeight : Int
  txCount : Nat
  status : String
  error : Option String
  debugMsg : String
deriving DecidableEq, Repr

/-- One step of the observable behaviour: an event emitted on the progress
channel, or a call into the Source / Store collaborator. -/
inductive Item where
  | emit (e : ProgressUpdate)
  | sourceCall (name : String)
  | storeCall (name : String)
deriving DecidableEq, Repr

/-- The progress events contained in a trace, in order. -/
def eventsOf (tr : List Item) : List ProgressUpdate :=
  tr.filterMap fun i =>
    match i with
    | .emit e => some e
    | _ => none

/-- Number of events in a list carrying a given status string. -/
def countStatus (s : String) (evs : List ProgressUpdate) : Nat :=
  (evs.filter fun e => e.status == s).length

/-- `DB.GetProcessedBlocks` (db.go lines 114-133): the set of heights in
`[fromHeight, toHeight]` whose status is `completed`, as the membership
function of the Go map (`map[int64]bool` lookups default to `false`).
Fails only when the SQL query itself fails. -/
def GetProcessedBlocks (env : Env) (store : Store) (fromHeight toHeight : Int) :
    Except String (Int → Bool) :=
  match env.getProcessedBlocksFails with
  | some e => .error e
  | none => .ok fun h =>
      decide (fromHeight ≤ h) && decide (h ≤ toHeight) &&
        (match store h with
         | some row => row.status == .completed
         | none => false)

/-- `DB.MarkBlockProcessing` (db.go lines 135-139): `INSERT OR REPLACE`
writes a fresh row with status `processing`; columns not listed
(`error_message`, `completed_at`) become NULL. -/
def MarkBlockProcessing (env : Env) (store : Store) (height : Int) (hash : String) :
    Except String Store :=
  match env.markBlockProcessingFails height with
  | some e => .error e
  | none => .ok (store.set height ⟨hash, .processing, none⟩)

/-- `DB.MarkBlockCompleted` (db.go lines 141-152): first a `SELECT` of the
row's `block_hash` (an intrinsic failure when no row exists), then an
`INSERT OR REPLACE` with status `completed` (the `error_message` column is
not listed, so it becomes NULL). -/
def MarkBlockCompleted (env : Env) (store : Store) (height : Int) :
    Except String Store :=
  match store height with
  | none => .error ("failed to get block hash for height " ++ toString height ++ ": no rows")
  | some row =>
    match env.markBlockCompletedFails height with
    | some e => .error e
    | none => .ok (store.set height ⟨row.blockHash, .completed, none⟩)

/-- `DB.MarkBlockFailed` (db.go lines 154-158): an `UPDATE ... WHERE
block_height = ?`.  When no row matches, the statement succeeds and
changes nothing. -/
def MarkBlockFailed (env : Env) (store : Store) (height : Int) (errMsg : String) :
    Except String Store :=
  match env.markBlockFailedFails height with
  | some e => .error e
  | none => .ok (match store height with
      | none => store
      | some row => store.set height ⟨row.blockHash, .failed, some errMsg⟩)

/-- `DB.InsertBlock` (db.go lines 53-65): an insert-or-ignore into the
`blocks` table; it never touches `processing_status`, so only its
success/failure matters here. -/
def InsertBlock (env : Env) (block : Block) : Except String Unit :=
  match env.insertBlockFails block with
  | some e => .error e
  | none => .ok ()

/-- `DB.InsertTransaction` (db.go lines 67-79): an insert-or-ignore into
the `transactions` table; it never touches `processing_status`. -/
def InsertTransaction (env : Env) (tx : Transaction) : Except String Unit :=
  match env.insertTransactionFails tx with
  | some e => .error e
  | none => .ok ()

/-- The worker ignores the error of a best-effort `MarkBlockFailed` call
(worker.go lines 111, 121, 126, 132): on engine failure the store is left
as it was. -/
def bestEffort (r : Except String Store) (fallback : Store) : Store :=
  match r with
  | .ok s => s
  | .error _ => fallback

/-- The `processing` event emitted at the top of `processBlock`
(worker.go lines 103-107). -/
def processingEvent (height : Int) : ProgressUpdate :=
  { blockHeight := height, txCount := 0, status := "processing", error := none,
    debugMsg := "Starting to process block " ++ toString height }

/-- The per-100-transactions heartbeat (worker.go lines 137-144). -/
def txProgressEvent (height : Int) (count total : Nat) : ProgressUpdate :=
  { blockHeight := height, txCount := count, status := "processing_transactions",
    error := none,
    debugMsg := "Block " ++ toString height ++ ": processed " ++ toString count ++
      "/" ++ toString total ++ " transactions" }

/-- The per-1000-transactions debug heartbeat (worker.go lines 147-154). -/
def txDebugEvent (height : Int) (count total : Nat) : ProgressUpdate :=
  { blockHeight := height, txCount := count, status := "processing_transactions",
    error := none,
    debugMsg := "Processed " ++ toString count ++ "/" ++ toString total ++
      " transactions for block " ++ toString height }

/-- The `completed` event (worker.go lines 161-166). -/
def completedEvent (height : Int) (txTotal : Nat) : ProgressUpdate :=
  { blockHeight := height, txCount := txTotal, status := "completed", error := none,
    debugMsg := "Completed block " ++ toString height ++ " with " ++ toString txTotal ++
      " transactions" }

/-- The `failed` event the worker emits when `processBlock` returns an
error (worker.go lines 89-93); unset Go struct fields are zero values. -/
def failedEvent (height : Int) (errMsg : String) : ProgressUpdate :=
  { blockHeight := height, txCount := 0, status := "failed", error := some errMsg,
    debugMsg := "" }

/-- The event sent when every height in range is already completed
(worker.go line 49). -/
def allProcessedEvent : ProgressUpdate :=
  { blockHeight := 0, txCount := 0, status := "All blocks already processed",
    error := none, debugMsg := "" }

/-- The transaction loop of `processBlock` (worker.go lines 130-155).
`i` is the running index, `total` is `len(transactions)`.  Each iteration
inserts the transaction (a failure marks the block failed, best-effort,
and aborts the block), then emits the 100-boundary / final heartbeat and
the 1000-boundary debug heartbeat. -/
def processTxs (env : Env) (height : Int) (total : Nat) :
    Store → List Transaction → Nat → List Item × Store × Option String
  | store, [], _ => ([], store, none)
  | store, tx :: rest, i =>
    match InsertTransaction env tx with
    | .error e =>
      let store1 := bestEffort (MarkBlockFailed env store height e) store
      ([Item.storeCall "InsertTransaction", Item.storeCall "MarkBlockFailed"],
        store1, some ("failed to insert transaction " ++ tx ++ ": " ++ e))
    | .ok _ =>
      let hb1 : List Item :=
        if (i + 1) % 100 = 0 ∨ i = total - 1 then
          [Item.emit (txProgressEvent height (i + 1) total)]
        else []
      let hb2 : List Item :=
        if (i + 1) % 1000 = 0 then
          [Item.emit (txDebugEvent height (i + 1) total)]
        else []
      let r := processTxs env height total store rest (i + 1)
      (Item.storeCall "InsertTransaction" :: (hb1 ++ hb2 ++ r.1), r.2.1, r.2.2)

/-- The body of `WorkerPool.processBlock` after the initial `processing`
event and the `GetBlockHashByHeight` call (worker.go lines 109-168),
named separately so each branch can be analysed; `processBlock` below adds
the common prefix. -/
def processBlockCore (env : Env) (store : Store) (height : Int) :
    List Item × Store × Option String :=
  match env.getBlockHashByHeight height with
    | .error e =>
      let store1 := bestEffort (MarkBlockFailed env store height e) store
      ([Item.storeCall "MarkBlockFailed"], store1,
        some ("failed to get hash for block " ++ toString height ++ ": " ++ e))
    | .ok hash =>
      match MarkBlockProcessing env store height hash with
      | .error e =>
        ([Item.storeCall "MarkBlockProcessing"], store,
          some ("failed to mark block processing: " ++ e))
      | .ok store1 =>
        match env.getBlockWithTransactions hash with
        | .error e =>
          let store2 := bestEffort (MarkBlockFailed env store1 height e) store1
          ([Item.storeCall "MarkBlockProcessing", Item.sourceCall "GetBlockWithTransactions",
            Item.storeCall "MarkBlockFailed"], store2,
            some ("failed to get block " ++ toString height ++ " with transactions: " ++ e))
        | .ok (block, transactions) =>
          match InsertBlock env block with
          | .error e =>
            let store2 := bestEffort (MarkBlockFailed env store1 height e) store1
            ([Item.storeCall "MarkBlockProcessing", Item.sourceCall "GetBlockWithTransactions",
              Item.storeCall "InsertBlock", Item.storeCall "MarkBlockFailed"], store2,
              some ("failed to insert block " ++ toString height ++ ": " ++ e))
          | .ok _ =>
            let r := processTxs env height transactions.length store1 transactions 0
            let pre : List Item :=
              [Item.storeCall "MarkBlockProcessing", Item.sourceCall "GetBlockWithTransactions",
                Item.storeCall "InsertBlock"]
            match r.2.2 with
            | some e => (pre ++ r.1, r.2.1, some e)
            | none =>
              match MarkBlockCompleted env r.2.1 height with
              | .error e =>
                (pre ++ r.1 ++ [Item.storeCall "MarkBlockCompleted"], r.2.1,
                  some ("failed to mark block completed: " ++ e))
              | .ok store2 =>
                (pre ++ r.1 ++ [Item.storeCall "MarkBlockCompleted",
                  Item.emit (completedEvent height transactions.length)], store2, none)

/-- `WorkerPool.processBlock` (worker.go lines 102-169): emit the
`processing` event, call `GetBlockHashByHeight`, then run the rest of the
pipeline (`processBlockCore`). -/
def processBlock (env : Env) (store : Store) (height : Int) :
    List Item × Store × Option String :=
  let rest := processBlockCore env store height
  (Item.emit (processingEvent height) :: Item.sourceCall "GetBlockHashByHeight" :: rest.1,
    rest.2.1, rest.2.2)

/-- One iteration of `WorkerPool.worker` for a dequeued height
(worker.go lines 88-94): run the pipeline and, when it returns an error,
emit a `failed` event. -/
def workerStep (env : Env) (store : Store) (height : Int) : List Item × Store :=
  let r := processBlock env store height
  (r.1 ++ (match r.2.2 with
    | none => []
    | some e => [Item.emit (failedEvent height e)]), r.2.1)

/-- Sequentialised processing of the dequeued heights by the worker pool.
Workers race in the source, but each dequeued height is handled by exactly
one worker running `workerStep`; this lists one serialisation of the
per-height traces (all counting and per-height claims are insensitive to
the interleaving). -/
def runHeights (env : Env) : Store → List Int → List Item × Store
  | store, [] => ([], store)
  | store, height :: rest =>
    let r := workerStep env store height
    let rr := runHeights env r.2 rest
    (r.1 ++ rr.1, rr.2)

/-- The Unit Resolver part of `ProcessBlockRange` (worker.go lines 36-46):
query the completed set, then walk `fromHeight..toHeight` in ascending
order keeping the heights not in it. -/
def heightRange (fromHeight toHeight : Int) : List Int :=
  (List.range (toHeight + 1 - fromHeight).toNat).map fun i : Nat => fromHeight + (i : Int)

/-- The pending heights (`blockHeights` in worker.go lines 41-46),
propagating a `GetProcessedBlocks` failure. -/
def computePending (env : Env) (store : Store) (fromHeight toHeight : Int) :
    Except String (List Int) :=
  match GetProcessedBlocks env store fromHeight toHeight with
  | .error e => .error e
  | .ok processed => .ok ((heightRange fromHeight toHeight).filter fun h => !(processed h))

/-- The nondeterminism the Go runtime resolves during one run of
`ProcessBlockRange`: whether the context gets cancelled during the run and
when relative to the `go wp.worker(...)` statements, whether the
dispatcher's `select` ever takes the `ctx.Done()` branch (worker.go lines
63-69), and how many heights are dequeued (and therefore fully processed)
by workers.  Workers dequeue from a FIFO channel, so the processed heights
are a prefix of the enqueue order. -/
structure Schedule where
  cancelled : Bool
  cancelledBeforeWorkersStart : Bool
  dispatcherObserves : Bool
  processedCount : Nat

/-- Which schedules correspond to real executions, for a run with the
given worker count and pending-set size: cancellation before the workers
start implies cancellation; the dispatcher can observe `ctx.Done()` only if
the context is cancelled; at most all pending heights are processed; with
no workers nothing is dequeued; and without cancellation, workers drain
the closed queue completely (or, with zero workers, `wg.Wait()` returns at
once and nothing is processed). -/
def ValidSchedule (sched : Schedule) (numWorkers : Int) (pendingLen : Nat) : Prop :=
  (sched.cancelledBeforeWorkersStart = true → sched.cancelled = true) ∧
  (sched.dispatcherObserves = true → sched.cancelled = true) ∧
  sched.processedCount ≤ pendingLen ∧
  (numWorkers ≤ 0 → sched.processedCount = 0) ∧
  (sched.cancelled = false →
    sched.dispatcherObserves = false ∧
    sched.processedCount = if numWorkers ≤ 0 then 0 else pendingLen)

/-- The observable outcome of one `ProcessBlockRange` call: the events
that appeared on the progress channel (in one serialisation), whether
`close(wp.progress)` was executed, how many worker goroutines were
spawned, the final status table, and the returned Go error. -/
structure RunResult where
  events : List ProgressUpdate
  streamClosed : Bool
  workersSpawned : Nat
  finalStore : Store
  ret : Option String

/-- `WorkerPool.ProcessBlockRange` (worker.go lines 35-76) under a given
schedule.  The three exit paths: setup failure returns the wrapped query
error (stream left open); an empty pending set emits one terminal event,
closes the stream and returns nil without spawning workers; otherwise
`numWorkers` workers are spawned (the Go loop spawns none for a
non-positive count), the dequeued prefix of the pending set is processed,
and either the dispatcher observes cancellation — `close(jobs)`,
`wg.Wait()`, return `ctx.Err()` with the stream left open — or it finishes
the enqueue loop, closes the queue, waits and closes the stream. -/
def ProcessBlockRange (env : Env) (store : Store) (fromHeight toHeight : Int)
    (numWorkers : Int) (sched : Schedule) : RunResult :=
  match computePending env store fromHeight toHeight with
  | .error e =>
    { events := [], streamClosed := false, workersSpawned := 0, finalStore := store,
      ret := some ("failed to get processed blocks: " ++ e) }
  | .ok blockHeights =>
    if blockHeights.length = 0 then
      { events := [allProcessedEvent], streamClosed := true, workersSpawned := 0,
        finalStore := store, ret := none }
    else
      let r := runHeights env store (blockHeights.take sched.processedCount)
      if sched.cancelled && sched.dispatcherObserves then
        { events := eventsOf r.1, streamClosed := false,
          workersSpawned := numWorkers.toNat, finalStore := r.2,
          ret := some "context canceled" }
      else
        { events := eventsOf r.1, streamClosed := true,
          workersSpawned := numWorkers.toNat, finalStore := r.2, ret := none }

/-! ## Concrete fixtures used by witnesses and counterexamples -/

/-- A collaborator oracle on which every call succeeds and every block
carries the given transaction list. -/
def envAllOK (txs : List Transaction) : Env :=
  { getBlockHashByHeight := fun h => .ok ("hash" ++ toString h)
    getBlockWithTransactions := fun hs => .ok (hs, txs)
    getProcessedBlocksFails := none
    markBlockProcessingFails := fun _ => none
    markBlockCompletedFails := fun _ => none
    markBlockFailedFails := fun _ => none
    insertBlockFails := fun _ => none
    insertTransactionFails := fun _ => none }

/-- An empty status table. -/
def storeEmpty : Store := fun _ => none

/-- 250 distinct transactions. -/
def tx250 : List Transaction := (List.range 250).map fun i => "tx" ++ toString i

/-- All-success oracle except that marking a block completed fails. -/
def envMCFail : Env :=
  { envAllOK [] with markBlockCompletedFails := fun _ => some "disk error" }

/-- All-success oracle except that hash resolution fails. -/
def envHashFail : Env :=
  { envAllOK [] with getBlockHashByHeight := fun _ => .error "connection refused" }

/-- A schedule on which the context is cancelled after the workers were
spawned and the dispatcher observes it before any height is dequeued. -/
def schedCancelObserved : Schedule :=
  { cancelled := true, cancelledBeforeWorkersStart := false,
    dispatcherObserves := true, processedCount := 0 }

/-- The schedule of an uncancelled run that processes `n` heights. -/
def schedNoCancel (n : Nat) : Schedule :=
  { cancelled := false, cancelledBeforeWorkersStart := false,
    dispatcherObserves := false, processedCount := n }

/-- A table where height 1 is completed, height 2 failed, others absent. -/
def storeMixed : Store := fun h =>
  if h = 1 then some ⟨"a", BlockStatus.completed, none⟩
  else if h = 2 then some ⟨"b", BlockStatus.failed, some "x"⟩
  else none

/-- A table where every height in [0, 1] is completed. -/
def storeCompleted01 : Store := fun h =>
  if 0 ≤ h ∧ h ≤ 1 then some ⟨"done", BlockStatus.completed, none⟩ else none

/-! ## Helper lemmas about traces and event counting -/

@[simp] theorem eventsOf_nil : eventsOf [] = [] := rfl

@[simp] theorem eventsOf_emit (e : ProgressUpdate) (l : List Item) :
    eventsOf (Item.emit e :: l) = e :: eventsOf l := rfl

@[simp] theorem eventsOf_sourceCall (n : String) (l : List Item) :
    eventsOf (Item.sourceCall n :: l) = eventsOf l := rfl

@[simp] theorem eventsOf_storeCall (n : String) (l : List Item) :
    eventsOf (Item.storeCall n :: l) = eventsOf l := rfl

@[simp] theorem eventsOf_append (a b : List Item) :
    eventsOf (a ++ b) = eventsOf a ++ eventsOf b := by
  simp [eventsOf, List.filterMap_append]

@[simp] theorem countStatus_nil (s : String) : countStatus s [] = 0 := rfl

theorem countStatus_cons (s : String) (e : ProgressUpdate) (evs : List ProgressUpdate) :
    countStatus s (e :: evs) = (if e.status = s then 1 else 0) + countStatus s evs := by
  simp only [countStatus, List.filter_cons]
  split
  · simp_all
    omega
  · simp_all

@[simp] theorem countStatus_append (s : String) (a b : List ProgressUpdate) :
    countStatus s (a ++ b) = countStatus s a + countStatus s b := by
  simp [countStatus, List.filter_append]

theorem countStatus_eq_zero (s : String) (evs : List ProgressUpdate)
    (h : ∀ e ∈ evs, e.status ≠ s) : countStatus s evs = 0 := by
  induction evs with
  | nil => rfl
  | cons e rest ih =>
    rw [countStatus_cons]
    have h1 := h e (by simp)
    simp only [h1, if_false]
    rw [Nat.zero_add]
    exact ih fun x hx => h x (by simp [hx])

/-- Every event the transaction loop emits is a `processing_transactions`
heartbeat. -/
theorem processTxs_status (env : Env) (height : Int) (total : Nat) :
    ∀ (txs : List Transaction) (store : Store) (i : Nat),
      ∀ e ∈ eventsOf (processTxs env height total store txs i).1,
        e.status = "processing_transactions" := by
  intro txs
  induction txs with
  | nil => intro store i e he; simp [processTxs] at he
  | cons tx rest ih =>
    intro store i e he
    rw [processTxs] at he
    cases hi : InsertTransaction env tx with
    | error err => rw [hi] at he; simp [eventsOf] at he
    | ok u =>
      rw [hi] at he
      simp only [eventsOf_storeCall, eventsOf_append] at he
      rcases List.mem_append.1 he with h1 | h2
      · rcases List.mem_append.1 h1 with ha | hb
        · split at ha
          · simp at ha; subst ha; rfl
          · simp at ha
        · split at hb
          · simp at hb; subst hb; rfl
          · simp at hb
      · exact ih store (i + 1) e h2

/-- When every transaction insert succeeds, the loop leaves the status
table untouched and reports no error. -/
theorem processTxs_ok (env : Env) (height : Int) (total : Nat) :
    ∀ (txs : List Transaction) (store : Store) (i : Nat),
      (∀ tx ∈ txs, env.insertTransactionFails tx = none) →
      (processTxs env height total store txs i).2.1 = store ∧
      (processTxs env height total store txs i).2.2 = none := by
  intro txs
  induction txs with
  | nil => intro store i _; exact ⟨rfl, rfl⟩
  | cons tx rest ih =>
    intro store i hok
    have htx : InsertTransaction env tx = .ok () := by
      simp [InsertTransaction, hok tx (by simp)]
    rw [processTxs, htx]
    exact ih store (i + 1) fun x hx => hok x (by simp [hx])

/-- When every transaction insert succeeds, a heartbeat with running count
`j + 1` is emitted for every index `j` on a 100-boundary and for the final
index. -/
theorem processTxs_heartbeat (env : Env) (height : Int) (total : Nat) :
    ∀ (txs : List Transaction) (store : Store) (i j : Nat),
      (∀ tx ∈ txs, env.insertTransactionFails tx = none) →
      i ≤ j → j < i + txs.length →
      ((j + 1) % 100 = 0 ∨ j = total - 1) →
      Item.emit (txProgressEvent height (j + 1) total) ∈
        (processTxs env height total store txs i).1 := by
  intro txs
  induction txs with
  | nil => intro store i j _ hij hlt _; simp at hlt; omega
  | cons tx rest ih =>
    intro store i j hok hij hlt hc
    have htx : InsertTransaction env tx = .ok () := by
      simp [InsertTransaction, hok tx (by simp)]
    rw [processTxs, htx]
    simp only [List.mem_cons, List.mem_append]
    rcases Nat.eq_or_lt_of_le hij with heq | hlt2
    · subst heq
      right; left; left
      split
      · simp
      · exact absurd hc (by assumption)
    · right; right
      exact ih store (i + 1) j (fun x hx => hok x (by simp [hx])) hlt2
        (by simp at hlt; omega) hc

/-- `processBlockCore` never emits a `failed` event, and emits a
`completed` event exactly when its pipeline result is `nil`. -/
theorem processBlockCore_counts (env : Env) (store : Store) (height : Int) :
    countStatus "failed" (eventsOf (processBlockCore env store height).1) = 0 ∧
    countStatus "completed" (eventsOf (processBlockCore env store height).1) =
      (if (processBlockCore env store height).2.2 = none then 1 else 0) := by
  unfold processBlockCore
  cases h1 : env.getBlockHashByHeight height with
  | error e => simp [h1, countStatus, eventsOf]
  | ok hash =>
  cases h2 : MarkBlockProcessing env store height hash with
  | error e => simp [h1, h2, countStatus, eventsOf]
  | ok store1 =>
  cases h3 : env.getBlockWithTransactions hash with
  | error e => simp [h1, h2, h3, countStatus, eventsOf]
  | ok p =>
  obtain ⟨block, transactions⟩ := p
  cases h4 : InsertBlock env block with
  | error e => simp [h1, h2, h3, h4, countStatus, eventsOf]
  | ok u =>
  have hf : countStatus "failed"
      (eventsOf (processTxs env height transactions.length store1 transactions 0).1) = 0 :=
    countStatus_eq_zero _ _ fun e he => by
      rw [processTxs_status env height transactions.length transactions store1 0 e he]
      decide
  have hcpl : countStatus "completed"
      (eventsOf (processTxs env height transactions.length store1 transactions 0).1) = 0 :=
    countStatus_eq_zero _ _ fun e he => by
      rw [processTxs_status env height transactions.length transactions store1 0 e he]
      decide
  cases h5 : (processTxs env height transactions.length store1 transactions 0).2.2 with
  | some e => simp [h1, h2, h3, h4, h5, hf, hcpl]
  | none =>
    cases h6 : MarkBlockCompleted env
        (processTxs env height transactions.length store1 transactions 0).2.1 height with
    | error e2 => simp [h1, h2, h3, h4, h5, h6, hf, hcpl]
    | ok store2 => simp [h1, h2, h3, h4, h5, h6, hf, hcpl, countStatus_cons, completedEvent]

/-- `processBlock` never emits a `failed` event, and emits a `completed`
event exactly when the pipeline returns `nil`. -/
theorem processBlock_counts (env : Env) (store : Store) (height : Int) :
    countStatus "failed" (eventsOf (processBlock env store height).1) = 0 ∧
    countStatus "completed" (eventsOf (processBlock env store height).1) =
      (if (processBlock env store height).2.2 = none then 1 else 0) := by
  obtain ⟨hf, hc⟩ := processBlockCore_counts env store height
  have hp1 : ¬((processingEvent height).status = "failed") := by
    simp [processingEvent]
  have hp2 : ¬((processingEvent height).status = "completed") := by
    simp [processingEvent]
  simp only [processBlock, eventsOf_emit, eventsOf_sourceCall, countStatus_cons]
  constructor
  · rw [if_neg hp1, Nat.zero_add]
    exact hf
  · rw [if_neg hp2, Nat.zero_add]
    exact hc

/-- Each dequeued height contributes exactly one terminal (`completed` or
`failed`) event. -/
theorem workerStep_terminal (env : Env) (store : Store) (height : Int) :
    countStatus "completed" (eventsOf (workerStep env store height).1) +
    countStatus "failed" (eventsOf (workerStep env store height).1) = 1 := by
  obtain ⟨hf, hc⟩ := processBlock_counts env store height
  unfold workerStep
  cases hr : (processBlock env store height).2.2 with
  | none =>
    rw [hr] at hc
    simp [hr, hf, hc]
  | some e =>
    rw [hr] at hc
    simp [hr, hf, hc, countStatus_cons, failedEvent]

/-- Terminal events across a list of dequeued heights count the heights. -/
theorem runHeights_terminal (env : Env) :
    ∀ (hs : List Int) (store : Store),
      countStatus "completed" (eventsOf (runHeights env store hs).1) +
      countStatus "failed" (eventsOf (runHeights env store hs).1) = hs.length := by
  intro hs
  induction hs with
  | nil => intro store; simp [runHeights]
  | cons height rest ih =>
    intro store
    have h1 := workerStep_terminal env store height
    have h2 := ih (workerStep env store height).2
    simp only [runHeights, eventsOf_append, countStatus_append, List.length_cons]
    omega

/-- Membership in the ascending walk of `[fromHeight, toHeight]`. -/
theorem mem_heightRange (fromHeight toHeight h : Int) :
    h ∈ heightRange fromHeight toHeight ↔ fromHeight ≤ h ∧ h ≤ toHeight := by
  rw [heightRange, List.mem_map]
  constructor
  · rintro ⟨i, hi, rfl⟩
    have hir := List.mem_range.1 hi
    omega
  · intro hb
    have h1 : (h - fromHeight).toNat < (toHeight + 1 - fromHeight).toNat := by omega
    have h2 : fromHeight + ((h - fromHeight).toNat : Int) = h := by omega
    exact ⟨(h - fromHeight).toNat, List.mem_range.2 h1, h2⟩

/-- The walk of `[fromHeight, toHeight]` is strictly ascending. -/
theorem heightRange_sorted (fromHeight toHeight : Int) :
    List.Pairwise (· < ·) (heightRange fromHeight toHeight) := by
  rw [heightRange]
  refine List.Pairwise.map _ ?_ (List.pairwise_lt_range _)
  intro a b hab
  have hab2 : a < b := hab
  omega

/-- Shape of the full pipeline when every collaborator call succeeds:
processing event, calls, transaction loop, completion write, completed
event; result `nil`; the height ends `completed` in the status table. -/
theorem processBlock_success (env : Env) (store : Store) (height : Int) (hash : String)
    (block : Block) (txs : List Transaction)
    (h1 : env.getBlockHashByHeight height = .ok hash)
    (h2 : env.markBlockProcessingFails height = none)
    (h3 : env.getBlockWithTransactions hash = .ok (block, txs))
    (h4 : env.insertBlockFails block = none)
    (h5 : ∀ tx ∈ txs, env.insertTransactionFails tx = none)
    (h6 : env.markBlockCompletedFails height = none) :
    (processBlock env store height).1 =
      Item.emit (processingEvent height) :: Item.sourceCall "GetBlockHashByHeight" ::
      Item.storeCall "MarkBlockProcessing" :: Item.sourceCall "GetBlockWithTransactions" ::
      Item.storeCall "InsertBlock" ::
      ((processTxs env height txs.length (store.set height ⟨hash, .processing, none⟩) txs 0).1 ++
        [Item.storeCall "MarkBlockCompleted", Item.emit (completedEvent height txs.length)]) ∧
    (processBlock env store height).2.2 = none ∧
    (processBlock env store height).2.1 =
      (store.set height ⟨hash, BlockStatus.processing, none⟩).set height
        ⟨hash, BlockStatus.completed, none⟩ := by
  have hmbp : MarkBlockProcessing env store height hash =
      .ok (store.set height ⟨hash, .processing, none⟩) := by
    simp [MarkBlockProcessing, h2]
  have hib : InsertBlock env block = .ok () := by
    simp [InsertBlock, h4]
  obtain ⟨hst, hres⟩ := processTxs_ok env height txs.length txs
    (store.set height ⟨hash, .processing, none⟩) 0 h5
  have hmbc : MarkBlockCompleted env
      (processTxs env height txs.length (store.set height ⟨hash, .processing, none⟩) txs 0).2.1
      height =
      .ok ((store.set height ⟨hash, BlockStatus.processing, none⟩).set height
        ⟨hash, BlockStatus.completed, none⟩) := by
    rw [hst]
    simp [MarkBlockCompleted, Store.set, h6]
  simp only [processBlock, processBlockCore, h1, hmbp, h3, hib, hres, hmbc]
  refine ⟨?_, ?_, ?_⟩ <;> simp

/-! ## Claim theorems -/

/-- Claim C1, counterexample: the code violates the claim as stated.  On a
run whose context is cancelled after the workers were spawned (so not
"before any worker starts") and whose dispatcher observes the cancellation
before any height is dequeued — a real execution, since every `select`
picks among ready branches — zero terminal events are emitted although the
pending set has one height. -/
theorem C1_counterexample :
    computePending (envAllOK []) storeEmpty 0 0 = .ok [0] ∧
    ValidSchedule schedCancelObserved 1 1 ∧
    schedCancelObserved.cancelledBeforeWorkersStart = false ∧
    countStatus "completed"
      (ProcessBlockRange (envAllOK []) storeEmpty 0 0 1 schedCancelObserved).events +
    countStatus "failed"
      (ProcessBlockRange (envAllOK []) storeEmpty 0 0 1 schedCancelObserved).events = 0 ∧
    ([(0 : Int)]).length = 1 := by
  exact ⟨rfl, by unfold ValidSchedule; decide, rfl, rfl, rfl⟩

/-- Claim C1, amended: for every run with at least one worker that is not
cancelled at any point, the number of `completed` events plus the number
of `failed` events emitted on the progress stream equals the number of
pending heights computed at the start of the run. -/
theorem C1_terminal_accounting (env : Env) (store : Store) (fromHeight toHeight : Int)
    (numWorkers : Int) (sched : Schedule) (pending : List Int)
    (hp : computePending env store fromHeight toHeight = .ok pending)
    (hv : ValidSchedule sched numWorkers pending.length)
    (hw : 1 ≤ numWorkers)
    (hnc : sched.cancelled = false) :
    countStatus "completed"
      (ProcessBlockRange env store fromHeight toHeight numWorkers sched).events +
    countStatus "failed"
      (ProcessBlockRange env store fromHeight toHeight numWorkers sched).events =
    pending.length := by
  obtain ⟨-, -, -, -, hc⟩ := hv
  obtain ⟨hobs, hcount⟩ := hc hnc
  have hnw : ¬(numWorkers ≤ 0) := by omega
  rw [if_neg hnw] at hcount
  by_cases hlen : pending.length = 0
  · rw [hlen]
    simp [ProcessBlockRange, hp, hlen, countStatus_cons, allProcessedEvent]
  · simp only [ProcessBlockRange, hp, if_neg hlen, hnc, Bool.false_and, Bool.false_eq_true,
      if_false]
    rw [hcount, List.take_length]
    exact runHeights_terminal env pending store

/-- Claim C1, witness: an uncancelled one-worker run over the single
pending height 0 emits exactly one terminal event. -/
theorem C1_terminal_accounting_witness :
    countStatus "completed"
      (ProcessBlockRange (envAllOK []) storeEmpty 0 0 1 (schedNoCancel 1)).events +
    countStatus "failed"
      (ProcessBlockRange (envAllOK []) storeEmpty 0 0 1 (schedNoCancel 1)).events =
    ([(0 : Int)]).length :=
  C1_terminal_accounting (envAllOK []) storeEmpty 0 0 1 (schedNoCancel 1) [0]
    rfl (by unfold ValidSchedule; decide) (by decide) rfl

/-- Claim C2, counterexample: on the exit path where the dispatcher
observes cancellation, `ProcessBlockRange` returns the cancellation error
after `close(jobs)` and `wg.Wait()` but does NOT close the event stream,
contradicting the claim that every exit path closes the stream. -/
theorem C2_counterexample :
    computePending (envAllOK []) storeEmpty 0 0 = .ok [0] ∧
    ValidSchedule schedCancelObserved 1 1 ∧
    (ProcessBlockRange (envAllOK []) storeEmpty 0 0 1 schedCancelObserved).ret =
      some "context canceled" ∧
    (ProcessBlockRange (envAllOK []) storeEmpty 0 0 1 schedCancelObserved).streamClosed =
      false := by
  exact ⟨rfl, by unfold ValidSchedule; decide, rfl, rfl⟩

/-- Claim C2, amended: given a successful pending-set computation, the
dispatcher closes the event stream exactly on the empty-pending fast path
and on the normal completion path (queue closed, workers waited, stream
closed, nil returned); on the cancellation-observed exit path it closes
the work queue and waits for the workers but leaves the event stream open
and returns the cancellation error.  No event is sent after closure. -/
theorem C2_stream_closure (env : Env) (store : Store) (fromHeight toHeight : Int)
    (numWorkers : Int) (sched : Schedule) (pending : List Int)
    (hp : computePending env store fromHeight toHeight = .ok pending) :
    (pending.length = 0 →
      (ProcessBlockRange env store fromHeight toHeight numWorkers sched).streamClosed = true ∧
      (ProcessBlockRange env store fromHeight toHeight numWorkers sched).ret = none) ∧
    (pending.length ≠ 0 → (sched.cancelled && sched.dispatcherObserves) = true →
      (ProcessBlockRange env store fromHeight toHeight numWorkers sched).streamClosed = false ∧
      (ProcessBlockRange env store fromHeight toHeight numWorkers sched).ret =
        some "context canceled") ∧
    (pending.length ≠ 0 → (sched.cancelled && sched.dispatcherObserves) = false →
      (ProcessBlockRange env store fromHeight toHeight numWorkers sched).streamClosed = true ∧
      (ProcessBlockRange env store fromHeight toHeight numWorkers sched).ret = none) := by
  refine ⟨?_, ?_, ?_⟩
  · intro hlen
    simp only [ProcessBlockRange, hp]
    rw [if_pos hlen]
    exact ⟨rfl, rfl⟩
  · intro hlen hcond
    simp only [ProcessBlockRange, hp]
    rw [if_neg hlen, hcond]
    exact ⟨rfl, rfl⟩
  · intro hlen hcond
    simp only [ProcessBlockRange, hp]
    rw [if_neg hlen, hcond]
    exact ⟨rfl, rfl⟩

/-- Claim C2, witness: the closure characterisation instantiated on a
concrete cancelled run over pending set `[0]`. -/
theorem C2_stream_closure_witness :
    (([(0 : Int)]).length = 0 →
      (ProcessBlockRange (envAllOK []) storeEmpty 0 0 2 schedCancelObserved).streamClosed = true ∧
      (ProcessBlockRange (envAllOK []) storeEmpty 0 0 2 schedCancelObserved).ret = none) ∧
    (([(0 : Int)]).length ≠ 0 →
      (schedCancelObserved.cancelled && schedCancelObserved.dispatcherObserves) = true →
      (ProcessBlockRange (envAllOK []) storeEmpty 0 0 2 schedCancelObserved).streamClosed = false ∧
      (ProcessBlockRange (envAllOK []) storeEmpty 0 0 2 schedCancelObserved).ret =
        some "context canceled") ∧
    (([(0 : Int)]).length ≠ 0 →
      (schedCancelObserved.cancelled && schedCancelObserved.dispatcherObserves) = false →
      (ProcessBlockRange (envAllOK []) storeEmpty 0 0 2 schedCancelObserved).streamClosed = true ∧
      (ProcessBlockRange (envAllOK []) storeEmpty 0 0 2 schedCancelObserved).ret = none) :=
  C2_stream_closure (envAllOK []) storeEmpty 0 0 2 schedCancelObserved [0] rfl

/-- Claim C3, counterexample: when the final `MarkBlockCompleted` call
fails, the pipeline error is returned and the stored status stays
`processing`, but — contradicting the claim — one `failed` ProgressEvent
IS emitted, because the worker converts every `processBlock` error into a
`failed` event (worker.go lines 88-94). -/
theorem C3_counterexample :
    (processBlock envMCFail storeEmpty 5).2.2 =
      some "failed to mark block completed: disk error" ∧
    (workerStep envMCFail storeEmpty 5).2 5 =
      some ⟨"hash5", BlockStatus.processing, none⟩ ∧
    countStatus "failed" (eventsOf (workerStep envMCFail storeEmpty 5).1) = 1 := by
  exact ⟨rfl, rfl, rfl⟩

/-- Claim C3, amended: for every height whose pipeline reaches the final
`MarkCompleted` store call and that call fails, the unit's error is
reported as a pipeline error and the height's stored status remains
`processing`, and exactly one `failed` ProgressEvent is emitted for this
failure mode (by the worker, like for every other pipeline error); no
`failed` status is written to the store. -/
theorem C3_markCompleted_failure (env : Env) (store : Store) (height : Int) (hash : String)
    (block : Block) (txs : List Transaction) (e : String)
    (h1 : env.getBlockHashByHeight height = .ok hash)
    (h2 : env.markBlockProcessingFails height = none)
    (h3 : env.getBlockWithTransactions hash = .ok (block, txs))
    (h4 : env.insertBlockFails block = none)
    (h5 : ∀ tx ∈ txs, env.insertTransactionFails tx = none)
    (h6 : env.markBlockCompletedFails height = some e) :
    (processBlock env store height).2.2 = some ("failed to mark block completed: " ++ e) ∧
    (workerStep env store height).2 height = some ⟨hash, BlockStatus.processing, none⟩ ∧
    countStatus "failed" (eventsOf (workerStep env store height).1) = 1 := by
  have hmbp : MarkBlockProcessing env store height hash =
      .ok (store.set height ⟨hash, .processing, none⟩) := by
    simp [MarkBlockProcessing, h2]
  have hib : InsertBlock env block = .ok () := by
    simp [InsertBlock, h4]
  obtain ⟨hst, hres⟩ := processTxs_ok env height txs.length txs
    (store.set height ⟨hash, .processing, none⟩) 0 h5
  have hmbc : MarkBlockCompleted env
      (processTxs env height txs.length (store.set height ⟨hash, .processing, none⟩) txs 0).2.1
      height = .error e := by
    rw [hst]
    simp [MarkBlockCompleted, Store.set, h6]
  have hpb2 : (processBlock env store height).2.2 =
      some ("failed to mark block completed: " ++ e) := by
    simp only [processBlock, processBlockCore, h1, hmbp, h3, hib, hres, hmbc]
  have hpb1 : (processBlock env store height).2.1 =
      (processTxs env height txs.length (store.set height ⟨hash, .processing, none⟩) txs 0).2.1 := by
    simp only [processBlock, processBlockCore, h1, hmbp, h3, hib, hres, hmbc]
  refine ⟨hpb2, ?_, ?_⟩
  · have hws : (workerStep env store height).2 = (processBlock env store height).2.1 := rfl
    rw [hws, hpb1, hst]
    simp [Store.set]
  · obtain ⟨hf, -⟩ := processBlock_counts env store height
    simp only [workerStep, hpb2]
    simp [hf, countStatus_cons, failedEvent]

/-- Claim C3, witness: the `MarkCompleted`-failure behaviour on a concrete
oracle whose completion write fails with "disk error". -/
theorem C3_markCompleted_failure_witness :
    (processBlock envMCFail storeEmpty 6).2.2 =
      some "failed to mark block completed: disk error" ∧
    (workerStep envMCFail storeEmpty 6).2 6 =
      some ⟨"hash6", BlockStatus.processing, none⟩ ∧
    countStatus "failed" (eventsOf (workerStep envMCFail storeEmpty 6).1) = 1 :=
  C3_markCompleted_failure envMCFail storeEmpty 6 "hash6" "hash6" [] "disk error"
    rfl rfl rfl rfl (by simp) rfl

/-- Claim C4, counterexample: hash resolution fails for height 5, which
has no pre-existing `processing_status` row; `MarkBlockFailed` is an SQL
UPDATE that matches no row, so — contradicting the claim — no `failed`
status is recorded for the height (the table still has no row), although
one `failed` event is emitted. -/
theorem C4_counterexample :
    storeEmpty 5 = none ∧
    (workerStep envHashFail storeEmpty 5).2 5 = none ∧
    countStatus "failed" (eventsOf (workerStep envHashFail storeEmpty 5).1) = 1 := by
  exact ⟨rfl, rfl, rfl⟩

/-- Claim C4, amended: for every height whose hash resolution fails, the
pipeline makes a best-effort `MarkBlockFailed` call which — being an
UPDATE — records the `failed` status and error message only when a
`processing_status` row already exists, and leaves the store unchanged for
a height with no pre-existing row; in both cases exactly one `failed`
ProgressEvent is emitted and the worker moves to the next height. -/
theorem C4_hash_failure (env : Env) (store : Store) (height : Int) (e : String)
    (h1 : env.getBlockHashByHeight height = .error e)
    (h2 : env.markBlockFailedFails height = none) :
    (workerStep env store height).1 =
      [Item.emit (processingEvent height), Item.sourceCall "GetBlockHashByHeight",
       Item.storeCall "MarkBlockFailed",
       Item.emit (failedEvent height
         ("failed to get hash for block " ++ toString height ++ ": " ++ e))] ∧
    (store height = none → (workerStep env store height).2 height = none) ∧
    (∀ row, store height = some row →
      (workerStep env store height).2 height =
        some ⟨row.blockHash, BlockStatus.failed, some e⟩) := by
  have hmf : MarkBlockFailed env store height e = .ok (match store height with
      | none => store
      | some row => store.set height ⟨row.blockHash, .failed, some e⟩) := by
    simp [MarkBlockFailed, h2]
  refine ⟨?_, ?_, ?_⟩
  · simp only [workerStep, processBlock, processBlockCore, h1, hmf, bestEffort]
    rfl
  · intro hn
    simp only [workerStep, processBlock, processBlockCore, h1, hmf, bestEffort, hn]
  · intro row hr
    simp only [workerStep, processBlock, processBlockCore, h1, hmf, bestEffort, hr]
    simp [Store.set]

/-- Claim C4, witness: the hash-resolution-failure behaviour on a concrete
oracle whose resolution fails with "connection refused". -/
theorem C4_hash_failure_witness :
    (workerStep envHashFail storeEmpty 9).1 =
      [Item.emit (processingEvent 9), Item.sourceCall "GetBlockHashByHeight",
       Item.storeCall "MarkBlockFailed",
       Item.emit (failedEvent 9 "failed to get hash for block 9: connection refused")] ∧
    (storeEmpty 9 = none → (workerStep envHashFail storeEmpty 9).2 9 = none) ∧
    (∀ row, storeEmpty 9 = some row →
      (workerStep envHashFail storeEmpty 9).2 9 =
        some ⟨row.blockHash, BlockStatus.failed, some "connection refused"⟩) :=
  C4_hash_failure envHashFail storeEmpty 9 "connection refused" rfl rfl

/-- Claim C5: for every inclusive range `[from, to]` with `from ≤ to`,
both nonnegative, the Unit Resolver returns exactly the ascending sequence
of heights in range whose status is not `completed` (heights with no row
and heights with `failed` status both count as pending), and it fails
exactly when the range query fails. -/
theorem C5_unit_resolver (env : Env) (store : Store) (fromHeight toHeight : Int)
    (hrange : fromHeight ≤ toHeight) (h0 : 0 ≤ fromHeight) :
    (env.getProcessedBlocksFails = none →
      ∃ pending, computePending env store fromHeight toHeight = .ok pending ∧
        List.Pairwise (· < ·) pending ∧
        (∀ h : Int, h ∈ pending ↔ fromHeight ≤ h ∧ h ≤ toHeight ∧
          ¬(∃ row, store h = some row ∧ row.status = BlockStatus.completed))) ∧
    (∀ e, env.getProcessedBlocksFails = some e →
      computePending env store fromHeight toHeight = .error e) := by
  constructor
  · intro hq
    have hcp : computePending env store fromHeight toHeight =
        .ok ((heightRange fromHeight toHeight).filter fun h =>
          !(decide (fromHeight ≤ h) && decide (h ≤ toHeight) &&
            (match store h with
             | some row => row.status == BlockStatus.completed
             | none => false))) := by
      simp [computePending, GetProcessedBlocks, hq]
    refine ⟨_, hcp, ?_, ?_⟩
    · exact (heightRange_sorted fromHeight toHeight).filter _
    · intro h
      rw [List.mem_filter]
      constructor
      · rintro ⟨hmem, hp⟩
        obtain ⟨hb1, hb2⟩ := (mem_heightRange _ _ _).1 hmem
        refine ⟨hb1, hb2, ?_⟩
        rintro ⟨row, hrow, hst⟩
        rw [hrow] at hp
        simp [hb1, hb2, hst] at hp
      · rintro ⟨hb1, hb2, hnc⟩
        refine ⟨(mem_heightRange _ _ _).2 ⟨hb1, hb2⟩, ?_⟩
        cases hrow : store h with
        | none => simp [hb1, hb2, hrow]
        | some row =>
          simp [hb1, hb2, hrow]
          intro hst
          exact hnc ⟨row, hrow, by exact hst⟩
  · intro e he
    simp [computePending, GetProcessedBlocks, he]

/-- Claim C5, witness: the resolver on range `[0, 3]` over a table where
height 1 is completed and height 2 failed; the pending set is the
ascending `[0, 2, 3]`. -/
theorem C5_unit_resolver_witness :
    ((envAllOK []).getProcessedBlocksFails = none →
      ∃ pending, computePending (envAllOK []) storeMixed 0 3 = .ok pending ∧
        List.Pairwise (· < ·) pending ∧
        (∀ h : Int, h ∈ pending ↔ 0 ≤ h ∧ h ≤ 3 ∧
          ¬(∃ row, storeMixed h = some row ∧ row.status = BlockStatus.completed))) ∧
    (∀ e, (envAllOK []).getProcessedBlocksFails = some e →
      computePending (envAllOK []) storeMixed 0 3 = .error e) :=
  C5_unit_resolver (envAllOK []) storeMixed 0 3 (by decide) (by decide)

/-- Claim C6: when every height in `[from, to]` is already `completed`,
`ProcessBlockRange` emits exactly one terminal event (the one whose status
string is "All blocks already processed", the `all_already_processed` tag
of the spec), closes the stream, returns success, and spawns no worker. -/
theorem C6_empty_pending (env : Env) (store : Store) (fromHeight toHeight : Int)
    (numWorkers : Int) (sched : Schedule)
    (hq : env.getProcessedBlocksFails = none)
    (hall : ∀ h : Int, fromHeight ≤ h → h ≤ toHeight →
      ∃ row, store h = some row ∧ row.status = BlockStatus.completed) :
    (ProcessBlockRange env store fromHeight toHeight numWorkers sched).events =
      [allProcessedEvent] ∧
    (ProcessBlockRange env store fromHeight toHeight numWorkers sched).streamClosed = true ∧
    (ProcessBlockRange env store fromHeight toHeight numWorkers sched).ret = none ∧
    (ProcessBlockRange env store fromHeight toHeight numWorkers sched).workersSpawned = 0 := by
  have hcp : computePending env store fromHeight toHeight = .ok [] := by
    simp only [computePending, GetProcessedBlocks, hq]
    have hfil : ∀ h ∈ heightRange fromHeight toHeight,
        ¬((!(decide (fromHeight ≤ h) && decide (h ≤ toHeight) &&
          (match store h with
           | some row => row.status == BlockStatus.completed
           | none => false))) = true) := by
      intro h hmem
      obtain ⟨hb1, hb2⟩ := (mem_heightRange _ _ _).1 hmem
      obtain ⟨row, hrow, hst⟩ := hall h hb1 hb2
      simp [hb1, hb2, hrow, hst]
    rw [List.filter_eq_nil_iff.2 hfil]
  simp [ProcessBlockRange, hcp]

/-- Claim C6, witness: range `[0, 1]` with both heights completed: one
terminal event, stream closed, success, zero workers. -/
theorem C6_empty_pending_witness :
    (ProcessBlockRange (envAllOK []) storeCompleted01 0 1 4 (schedNoCancel 0)).events =
      [allProcessedEvent] ∧
    (ProcessBlockRange (envAllOK []) storeCompleted01 0 1 4 (schedNoCancel 0)).streamClosed = true ∧
    (ProcessBlockRange (envAllOK []) storeCompleted01 0 1 4 (schedNoCancel 0)).ret = none ∧
    (ProcessBlockRange (envAllOK []) storeCompleted01 0 1 4 (schedNoCancel 0)).workersSpawned = 0 :=
  C6_empty_pending (envAllOK []) storeCompleted01 0 1 4 (schedNoCancel 0) rfl
    (fun h h1 h2 => ⟨⟨"done", BlockStatus.completed, none⟩,
      by simp [storeCompleted01, h1, h2], rfl⟩)

set_option maxRecDepth 10000 in
/-- Claim C7: on every successful pipeline a `processing_transactions`
heartbeat carrying the running count is emitted after every 100th
transaction and after the final one, and exactly one `completed` event is
emitted; in particular, for a block with 250 transactions the events are
`processing`, heartbeats at counts 100, 200, 250, then `completed` with
`txCount = 250`. -/
theorem C7_heartbeats (env : Env) (store : Store) (height : Int) (hash : String)
    (block : Block) (txs : List Transaction)
    (h1 : env.getBlockHashByHeight height = .ok hash)
    (h2 : env.markBlockProcessingFails height = none)
    (h3 : env.getBlockWithTransactions hash = .ok (block, txs))
    (h4 : env.insertBlockFails block = none)
    (h5 : ∀ tx ∈ txs, env.insertTransactionFails tx = none)
    (h6 : env.markBlockCompletedFails height = none) :
    (∀ i, i < txs.length → ((i + 1) % 100 = 0 ∨ i = txs.length - 1) →
      Item.emit (txProgressEvent height (i + 1) txs.length) ∈ (processBlock env store height).1) ∧
    countStatus "completed" (eventsOf (processBlock env store height).1) = 1 ∧
    (eventsOf (processBlock (envAllOK tx250) storeEmpty 7).1).map (fun e => (e.status, e.txCount)) =
      [("processing", 0), ("processing_transactions", 100), ("processing_transactions", 200),
       ("processing_transactions", 250), ("completed", 250)] := by
  obtain ⟨htr, hres, -⟩ := processBlock_success env store height hash block txs h1 h2 h3 h4 h5 h6
  refine ⟨?_, ?_, ?_⟩
  · intro i hi hc
    rw [htr]
    simp only [List.mem_cons, List.mem_append]
    right; right; right; right; right; left
    exact processTxs_heartbeat env height txs.length txs _ 0 i h5 (Nat.zero_le i)
      (by omega) hc
  · obtain ⟨-, hcpl⟩ := processBlock_counts env store height
    simp [hres] at hcpl
    exact hcpl
  · rfl

set_option maxRecDepth 10000 in
/-- Claim C7, witness: instantiated on the concrete 250-transaction
oracle; the heartbeat at count 100 is among the emitted items and the full
event sequence is the expected one. -/
theorem C7_heartbeats_witness :
    Item.emit (txProgressEvent 7 100 250) ∈ (processBlock (envAllOK tx250) storeEmpty 7).1 ∧
    (eventsOf (processBlock (envAllOK tx250) storeEmpty 7).1).map (fun e => (e.status, e.txCount)) =
      [("processing", 0), ("processing_transactions", 100), ("processing_transactions", 200),
       ("processing_transactions", 250), ("completed", 250)] := by
  obtain ⟨hmem, -, hconc⟩ := C7_heartbeats (envAllOK tx250) storeEmpty 7 "hash7" "hash7" tx250
    rfl rfl rfl rfl (fun _ _ => rfl) rfl
  have h250 : tx250.length = 250 := by simp [tx250]
  have hm := hmem 99 (by rw [h250]; decide) (Or.inl (by decide))
  rw [h250] at hm
  exact ⟨hm, hconc⟩

/-- Claim C8, counterexample: `NewWorkerPool` and `ProcessBlockRange`
never validate the pool size.  With zero workers and the non-empty
pending set `[0]`, the run spawns no worker, emits no event, leaves the
height unprocessed — and still returns success, contradicting the claim
that a size ≤ 0 is a configuration error and success is not reported
without processing. -/
theorem C8_counterexample :
    computePending (envAllOK []) storeEmpty 0 0 = .ok [0] ∧
    ValidSchedule (schedNoCancel 0) 0 1 ∧
    (ProcessBlockRange (envAllOK []) storeEmpty 0 0 0 (schedNoCancel 0)).ret = none ∧
    (ProcessBlockRange (envAllOK []) storeEmpty 0 0 0 (schedNoCancel 0)).workersSpawned = 0 ∧
    (ProcessBlockRange (envAllOK []) storeEmpty 0 0 0 (schedNoCancel 0)).events = [] ∧
    (ProcessBlockRange (envAllOK []) storeEmpty 0 0 0 (schedNoCancel 0)).finalStore 0 = none := by
  exact ⟨rfl, by unfold ValidSchedule; decide, rfl, rfl, rfl, rfl⟩

/-- Claim C8, amended: the dispatcher performs no pool-size validation;
for every uncancelled run with `poolSize = 0` and a non-empty pending set,
zero workers are spawned, no event is emitted, and the run nevertheless
reports success, leaving the pending heights unprocessed.  (A strictly
negative pool size never reaches `ProcessBlockRange` at all: the
`make(chan ProgressUpdate, numWorkers*2)` in `NewWorkerPool` panics on a
negative capacity, so only the zero case is a reachable execution of the
dispatcher.) -/
theorem C8_no_poolsize_validation (env : Env) (store : Store) (fromHeight toHeight : Int)
    (numWorkers : Int) (sched : Schedule) (pending : List Int)
    (hp : computePending env store fromHeight toHeight = .ok pending)
    (hne : pending.length ≠ 0)
    (hw : numWorkers = 0)
    (hv : ValidSchedule sched numWorkers pending.length)
    (hnc : sched.cancelled = false) :
    (ProcessBlockRange env store fromHeight toHeight numWorkers sched).workersSpawned = 0 ∧
    (ProcessBlockRange env store fromHeight toHeight numWorkers sched).events = [] ∧
    (ProcessBlockRange env store fromHeight toHeight numWorkers sched).ret = none := by
  obtain ⟨-, -, -, h0, -⟩ := hv
  have hcount := h0 (by omega)
  simp only [ProcessBlockRange, hp]
  rw [if_neg hne, hnc]
  rw [hcount]
  simp only [Bool.false_and, Bool.false_eq_true, if_false]
  refine ⟨by omega, ?_, ?_⟩
  · simp [runHeights]
  · simp

/-- Claim C8, witness: the no-validation behaviour instantiated with pool
size 0 over the two-height pending set `[0, 1]`. -/
theorem C8_no_poolsize_validation_witness :
    (ProcessBlockRange (envAllOK []) storeEmpty 0 1 0 (schedNoCancel 0)).workersSpawned = 0 ∧
    (ProcessBlockRange (envAllOK []) storeEmpty 0 1 0 (schedNoCancel 0)).events = [] ∧
    (ProcessBlockRange (envAllOK []) storeEmpty 0 1 0 (schedNoCancel 0)).ret = none :=
  C8_no_poolsize_validation (envAllOK []) storeEmpty 0 1 0 (schedNoCancel 0) [0, 1]
    rfl (by decide) rfl (by unfold ValidSchedule; decide) rfl

/-- Claim C9: for every height a worker dequeues, the very first element
of the worker's trace is the `processing` ProgressEvent (whose debug
message names the height), so it is emitted before any Source or Store
call for that height. -/
theorem C9_processing_event_first (env : Env) (store : Store) (height : Int) :
    ∃ t, (workerStep env store height).1 = Item.emit (processingEvent height) :: t :=
  ⟨_, rfl⟩

/-- Claim C10: when the Source returns a block with zero transactions, the
pipeline emits no `processing_transactions` heartbeat and the `completed`
event carries `txCount = 0`. -/
theorem C10_zero_transactions (env : Env) (store : Store) (height : Int) (hash : String)
    (block : Block)
    (h1 : env.getBlockHashByHeight height = .ok hash)
    (h2 : env.markBlockProcessingFails height = none)
    (h3 : env.getBlockWithTransactions hash = .ok (block, []))
    (h4 : env.insertBlockFails block = none)
    (h6 : env.markBlockCompletedFails height = none) :
    eventsOf (processBlock env store height).1 =
      [processingEvent height, completedEvent height 0] ∧
    countStatus "processing_transactions" (eventsOf (processBlock env store height).1) = 0 := by
  obtain ⟨htr, -, -⟩ := processBlock_success env store height hash block [] h1 h2 h3 h4
    (by simp) h6
  rw [htr]
  constructor
  · simp [processTxs]
  · simp [processTxs, countStatus_cons, processingEvent, completedEvent]

/-- Claim C10, witness: the zero-transaction pipeline on a concrete
all-success oracle at height 3. -/
theorem C10_zero_transactions_witness :
    eventsOf (processBlock (envAllOK []) storeEmpty 3).1 =
      [processingEvent 3, completedEvent 3 0] ∧
    countStatus "processing_transactions" (eventsOf (processBlock (envAllOK []) storeEmpty 3).1) = 0 :=
  C10_zero_transactions (envAllOK []) storeEmpty 3 "hash3" "hash3" rfl rfl rfl rfl rfl
